import Mathlib

/-!
Verification of the ngx-svg shape directives.

The repository binds declarative Angular inputs to svg.js shape objects.
We shallowly embed the directive code: svg.js elements become a record of
the attributes the directives set, the drawing surface (container) becomes
a list of child shape identifiers, JS numbers become rationals, and code
that can throw a TypeError returns Except.  Definitions are translated
from the TypeScript source files, one Lean definition per source method.
-/

set_option linter.unusedVariables false

namespace NgxSvg

/-- JS value held by a SimpleChange slot for the classes input: either a
string array or undefined (as on an Angular first change). -/
inductive ClassesVal where
  | arr (cs : List String)
  | undef
  deriving DecidableEq, Repr

/-- One Angular SimpleChange record for the classes input.  The field
sameRef models JS reference equality of currentValue and previousValue:
the source compares the two arrays with !== (identity, not contents). -/
structure ClassesChange where
  previousValue : ClassesVal
  currentValue : ClassesVal
  sameRef : Bool
  deriving DecidableEq, Repr

/-- A thrown JS exception (only TypeErrors arise in the code we model). -/
inductive JsError where
  | typeError (msg : String)
  deriving DecidableEq, Repr

/-- Result record of getClassesToAddAndRemove. -/
structure ClassDiff where
  classesToAdd : List String
  classesToRemove : List String
  deriving DecidableEq, Repr

/-- JS String.prototype.trim as used on the class names: strips leading
and trailing whitespace.  Modeled on the character list because Lean's
built-in trim does not reduce inside the kernel. -/
def jsTrim (s : String) : String :=
  String.mk
    (((s.data.dropWhile Char.isWhitespace).reverse.dropWhile Char.isWhitespace).reverse)

/-- Embedding of src/app/modules/util/handle-class-changes.util.ts,
getClassesToAddAndRemove.  The source destructures changes.classes (absent
entry modeled as none), guards on `classes && currentValue !== previousValue`,
then computes
  classesToRemove = previousValue.filter(p => !currentValue.some(c => c === p))
  classesToAdd    = currentValue.filter(c => !previousValue.some(p => c === p)).
When previousValue is undefined the first filter call throws a TypeError;
when previousValue is a non-empty array and currentValue is undefined the
call to currentValue.some inside the first filter throws; when previousValue
is the empty array the later call to currentValue.filter throws. -/
def getClassesToAddAndRemove (classes : Option ClassesChange) :
    Except JsError ClassDiff :=
  match classes with
  | none => .ok ⟨[], []⟩
  | some ch =>
    if ch.sameRef then .ok ⟨[], []⟩
    else
      match ch.previousValue, ch.currentValue with
      | .undef, _ =>
          .error (.typeError "classes.previousValue.filter is not a function")
      | .arr prev, .undef =>
          if prev.isEmpty then
            .error (.typeError "classes.currentValue.filter is not a function")
          else
            .error (.typeError "classes.currentValue.some is not a function")
      | .arr prev, .arr cur =>
          .ok ⟨cur.filter (fun currentClass => decide (currentClass ∉ prev)),
               prev.filter (fun previousClass => decide (previousClass ∉ cur))⟩

/-- Attribute state of a rendered svg.js element: exactly the fields the
directives of this repository write.  Event handler registrations are
counted per pointer event kind, since svg.js `on` adds a listener and the
directives always pass freshly created closures. -/
structure ShapeAttrs where
  fill : String := ""
  strokeColor : String := ""
  strokeWidth : Rat := 0
  cx : Rat := 0
  cy : Rat := 0
  x : Rat := 0
  y : Rat := 0
  w : Rat := 0
  h : Rat := 0
  rx : Rat := 0
  ry : Rat := 0
  plotData : String := ""
  linePlot : List Rat := []
  polyPlot : List (Rat × Rat) := []
  textContent : String := ""
  fontSize : Rat := 0
  imageHref : String := ""
  classes : List String := []
  clickHandlers : Nat := 0
  dblclickHandlers : Nat := 0
  mouseoverHandlers : Nat := 0
  mouseoutHandlers : Nat := 0
  removed : Bool := false
  deriving DecidableEq, Repr

namespace SvgJs

/-- svg.js Element.fill. -/
def fill (s : ShapeAttrs) (color : String) : ShapeAttrs := { s with fill := color }

/-- svg.js Element.stroke with a color/width record argument. -/
def stroke (s : ShapeAttrs) (color : String) (width : Rat) : ShapeAttrs :=
  { s with strokeColor := color, strokeWidth := width }

/-- svg.js Element.move. -/
def move (s : ShapeAttrs) (mx my : Rat) : ShapeAttrs := { s with x := mx, y := my }

/-- svg.js Element.size with two arguments. -/
def size (s : ShapeAttrs) (sw sh : Rat) : ShapeAttrs := { s with w := sw, h := sh }

/-- svg.js Circle.size with a single diameter argument (sets both extents). -/
def sizeD (s : ShapeAttrs) (d : Rat) : ShapeAttrs := { s with w := d, h := d }

/-- svg.js attr with name cx. -/
def attrCx (s : ShapeAttrs) (v : Rat) : ShapeAttrs := { s with cx := v }

/-- svg.js attr with name cy. -/
def attrCy (s : ShapeAttrs) (v : Rat) : ShapeAttrs := { s with cy := v }

/-- svg.js Path.plot with a path string. -/
def plot (s : ShapeAttrs) (d : String) : ShapeAttrs := { s with plotData := d }

/-- svg.js Line.plot with four coordinates. -/
def plotLine (s : ShapeAttrs) (x0 y0 x1 y1 : Rat) : ShapeAttrs :=
  { s with linePlot := [x0, y0, x1, y1] }

/-- svg.js Polyline.plot / Polygon.plot with a point array. -/
def plotPoly (s : ShapeAttrs) (pts : List (Rat × Rat)) : ShapeAttrs :=
  { s with polyPlot := pts }

/-- svg.js Text.text. -/
def text (s : ShapeAttrs) (t : String) : ShapeAttrs := { s with textContent := t }

/-- svg.js Text.font with a size record. -/
def font (s : ShapeAttrs) (sizeValue : Rat) : ShapeAttrs := { s with fontSize := sizeValue }

/-- svg.js Image.load. -/
def load (s : ShapeAttrs) (url : String) : ShapeAttrs := { s with imageHref := url }

/-- svg.js Element.addClass: adds the class only when not already present. -/
def addClass (s : ShapeAttrs) (name : String) : ShapeAttrs :=
  if name ∈ s.classes then s else { s with classes := s.classes ++ [name] }

/-- svg.js Element.removeClass: drops every occurrence of the class. -/
def removeClass (s : ShapeAttrs) (name : String) : ShapeAttrs :=
  { s with classes := s.classes.filter (fun c => decide (c ≠ name)) }

/-- Pointer event kinds the directives re-emit. -/
inductive EventKind where
  | click | dblclick | mouseover | mouseout
  deriving DecidableEq, Repr

/-- svg.js Element.on: registers one more listener for the event kind (the
directives always pass a fresh closure, so listeners accumulate). -/
def onEvent (s : ShapeAttrs) (k : EventKind) : ShapeAttrs :=
  match k with
  | .click => { s with clickHandlers := s.clickHandlers + 1 }
  | .dblclick => { s with dblclickHandlers := s.dblclickHandlers + 1 }
  | .mouseover => { s with mouseoverHandlers := s.mouseoverHandlers + 1 }
  | .mouseout => { s with mouseoutHandlers := s.mouseoutHandlers + 1 }

/-- Registers the four pointer handlers in the order every directive uses:
click, dblclick, mouseover, mouseout. -/
def onPointerEvents (s : ShapeAttrs) : ShapeAttrs :=
  onEvent (onEvent (onEvent (onEvent s .click) .dblclick) .mouseover) .mouseout

/-- svg.js Element.remove: detaches the element from its parent. -/
def remove (s : ShapeAttrs) : ShapeAttrs := { s with removed := true }

/-- svg.js Rect.radius. -/
def radius (s : ShapeAttrs) (rrx rry : Rat) : ShapeAttrs := { s with rx := rrx, ry := rry }

end SvgJs

/-- Drawing surface of the SvgContainerComponent: the ordered child shapes
of the root svg.js container, as identifiers, plus a counter supplying the
identity of the next created shape.  DOM nodes are distinct objects, so a
container's child list never repeats an identifier. -/
structure SvgContainer where
  shapes : List Nat
  nextId : Nat
  deriving DecidableEq, Repr

namespace SvgContainer

/-- svg.js Container.ellipse and friends: creates a fresh child shape,
appends it to the container and returns its identity. -/
def createChild (c : SvgContainer) : SvgContainer × Nat :=
  ({ shapes := c.shapes ++ [c.nextId], nextId := c.nextId + 1 }, c.nextId)

end SvgContainer

/-!
Standalone SvgEllipseDirective
(src/app/modules/directives/svg-ellipse.directive.ts).
Only the lifecycle state needed by the creation claims is modeled: the
optional container and the directive's private field this._ellipse.
-/

/-- Lifecycle state of the standalone ellipse directive: the host
container (null until the surface is ready) and this._ellipse. -/
structure LegacyEllipseState where
  container : Option SvgContainer
  _ellipse : Option Nat
  deriving DecidableEq, Repr

/-- SvgEllipseDirective.createEllipse (standalone version).  The source
runs container.ellipse(...).fill(...).attr(...).on(...), which creates a
new child of the container, but never assigns the result to this._ellipse;
it then calls setCorrectPosition and addRemoveClasses (both no-ops while
this._ellipse is null), reads this._ellipse into a local, and returns
before emitting onInitialize because that local is still null. -/
def legacyEllipseCreateEllipse (st : LegacyEllipseState) : LegacyEllipseState :=
  match st.container with
  | none => st
  | some c =>
      let (c2, _createdId) := c.createChild
      { st with container := some c2 }

/-- SvgEllipseDirective.ngAfterViewChecked (standalone version): creates
the ellipse when the container exists and this._ellipse is null. -/
def legacyEllipseAfterViewChecked (st : LegacyEllipseState) : LegacyEllipseState :=
  match st.container, st._ellipse with
  | some _, none => legacyEllipseCreateEllipse st
  | _, _ => st

/-!
SvgBaseDirective.setCorrectPosition
(the shared repositioning routine; the standalone directives repeat it
verbatim).  The container is its ordered child list; the host element's
DOM parent is likewise a list of element identifiers.
-/

/-- DOM Node.insertBefore as used by svg.js Element.insertBefore: the
node (already a child) is detached and reinserted immediately before the
target child.  DOM children are distinct nodes, so the first occurrence
is the node itself. -/
def domInsertBefore (children : List Nat) (node target : Nat) : List Nat :=
  let rest := children.erase node
  let i := rest.indexOf target
  rest.take i ++ node :: rest.drop i

/-- SvgBaseDirective.setCorrectPosition: computes the host element's index
among its DOM parent's children, and when the container has a child at
that index and the shape's own index differs, moves the shape before that
child; otherwise (including when container or shape is null) it returns
without changing anything.  JS indexOf yields -1 when the host is absent
and container.get(-1) is undefined; List.indexOf yields the length and
children[length]? is none, the same observable no-op. -/
def setCorrectPosition (container : Option (List Nat)) (shape : Option Nat)
    (domChildren : List Nat) (host : Nat) : Option (List Nat) :=
  match container, shape with
  | some children, some s =>
      let position := domChildren.indexOf host
      match children[position]? with
      | none => some children
      | some target =>
          if children.indexOf s ≠ position then
            some (domInsertBefore children s target)
          else
            some children
  | _, _ => container

/-- SvgBaseDirective.ngOnDestroy (all directives share this one line):
this._shape?.remove().  Removing detaches the shape from the container's
child list; the directive's own field still holds the shape reference and
nothing else changes.  Returns the directive field and the container. -/
def ngOnDestroy (shape : Option Nat) (containerShapes : List Nat) :
    Option Nat × List Nat :=
  match shape with
  | none => (none, containerShapes)
  | some s => (some s, containerShapes.erase s)

/-- SvgBaseDirective.addRemoveClasses: removes the stale classes first and
then adds the new ones, trimming every name; each call optional-chains on
this._shape, so the whole method is a no-op when the shape is null. -/
def baseAddRemoveClasses (shape : Option ShapeAttrs)
    (classesToAdd classesToRemove : List String) : Option ShapeAttrs :=
  match shape with
  | none => none
  | some s =>
      some (classesToAdd.foldl (fun t c => SvgJs.addClass t (jsTrim c))
              (classesToRemove.foldl (fun t c => SvgJs.removeClass t (jsTrim c)) s))

/-!
Circle directives (src/app/modules/directives/svg-circle.directive.ts
holds both the standalone version and the SvgBaseDirective subclass).
The setCorrectPosition call at the end of the update methods only
reorders the container children and is modeled by setCorrectPosition
above; the functions here return the shape attribute state.
-/

/-- Input properties of the circle directives. -/
structure CircleInputs where
  diameter : Rat := 0
  color : String := "#000"
  x : Rat := 0
  y : Rat := 0
  classes : List String := []
  deriving DecidableEq, Repr

/-- SvgCircleDirective.updateCircle (standalone version):
this._circle?.size(diameter).fill(color).attr(cx, +x + +diameter/2)
.attr(cy, +y + +diameter/2); the optional chain makes a null circle a
silent no-op.  The unary + coercions are identities on numbers. -/
def updateCircle (i : CircleInputs) (shape : Option ShapeAttrs) : Option ShapeAttrs :=
  match shape with
  | none => none
  | some s =>
      some (SvgJs.attrCy
              (SvgJs.attrCx (SvgJs.fill (SvgJs.sizeD s i.diameter) i.color)
                (i.x + i.diameter / 2))
              (i.y + i.diameter / 2))

/-- SvgCircleDirective.createCircle (standalone version): creates the
circle with the diameter, fills it, sets cx and cy, registers the four
pointer handlers, and adds the classes (this version does not trim). -/
def createCircle (i : CircleInputs) : ShapeAttrs :=
  let s := SvgJs.onPointerEvents
    (SvgJs.attrCy
      (SvgJs.attrCx (SvgJs.fill (SvgJs.sizeD ({} : ShapeAttrs) i.diameter) i.color)
        (i.x + i.diameter / 2))
      (i.y + i.diameter / 2))
  i.classes.foldl SvgJs.addClass s

/-- SvgCircleDirective.setAttributes (base-class version):
this._shape?.size(diameter).fill(color).attr(cx, Number(x) + diameter/2)
.attr(cy, Number(y) + diameter/2), then setCorrectPosition (container
reordering) and addRemoveClasses(this.classes) via the base class. -/
def circleSetAttributes (i : CircleInputs) (shape : Option ShapeAttrs) : Option ShapeAttrs :=
  match shape with
  | none => baseAddRemoveClasses none i.classes []
  | some s =>
      baseAddRemoveClasses
        (some (SvgJs.attrCy
                (SvgJs.attrCx (SvgJs.fill (SvgJs.sizeD s i.diameter) i.color)
                  (i.x + i.diameter / 2))
                (i.y + i.diameter / 2)))
        i.classes []

/-!
Ellipse directive, SvgBaseDirective subclass (src/unnamed/part_001).
-/

/-- Input properties of the ellipse directives. -/
structure EllipseInputs where
  x : Rat := 0
  y : Rat := 0
  height : Rat := 0
  width : Rat := 0
  color : String := "#000"
  classes : List String := []
  deriving DecidableEq, Repr

/-- Attribute part of SvgEllipseDirective.setAttributes (base-class
version) once the shape is known to exist: size(width, height),
fill(color), attr(cx, x + width/2), attr(cy, y + height/2), then the
base-class addRemoveClasses(this.classes). -/
def ellipseApplyAttributes (i : EllipseInputs) (s : ShapeAttrs) : ShapeAttrs :=
  let s2 := SvgJs.attrCy
    (SvgJs.attrCx (SvgJs.fill (SvgJs.size s i.width i.height) i.color)
      (i.x + i.width / 2))
    (i.y + i.height / 2)
  i.classes.foldl (fun t c => SvgJs.addClass t (jsTrim c)) s2

/-- SvgEllipseDirective.setAttributes (base-class version): the source
reads this._shape.size(...) without any null check, so it throws a
TypeError when the shape has not been created. -/
def ellipseSetAttributes (i : EllipseInputs) (shape : Option ShapeAttrs) :
    Except JsError ShapeAttrs :=
  match shape with
  | none => .error (.typeError "this._shape is null")
  | some s => .ok (ellipseApplyAttributes i s)

/-- SvgEllipseDirective.updateShape (base-class version): delegates to
setAttributes with no guard of its own. -/
def ellipseUpdateShape (i : EllipseInputs) (shape : Option ShapeAttrs) :
    Except JsError ShapeAttrs :=
  ellipseSetAttributes i shape

/-- SvgEllipseDirective.createShape (base-class version): assigns
this._shape = container.ellipse(width, height).on(...), then runs
setAttributes on the now non-null shape. -/
def ellipseCreateShape (i : EllipseInputs) : ShapeAttrs :=
  ellipseApplyAttributes i
    (SvgJs.onPointerEvents (SvgJs.size ({} : ShapeAttrs) i.width i.height))

/-!
Rect directive (src/app/modules/directives/svg-rect.directive.ts).
-/

/-- Input properties of the rect directive. -/
structure RectInputs where
  height : Rat := 0
  width : Rat := 0
  color : String := "#000"
  x : Rat := 0
  y : Rat := 0
  rx : Rat := 0
  ry : Rat := 0
  classes : List String := []
  deriving DecidableEq, Repr

/-- SvgRectDirective.updateRect: returns silently when this._rect is
null, otherwise size(width, height), fill(color), radius(rx, ry),
move(x, y), then setCorrectPosition (container reordering). -/
def updateRect (i : RectInputs) (shape : Option ShapeAttrs) : Option ShapeAttrs :=
  match shape with
  | none => none
  | some s =>
      some (SvgJs.move (SvgJs.radius (SvgJs.fill (SvgJs.size s i.width i.height) i.color)
              i.rx i.ry) i.x i.y)

/-!
Text directive (src/app/modules/directives/svg-text.directive.ts,
standalone version).
-/

/-- Input properties of the text directive. -/
structure TextInputs where
  color : String := "#000"
  text : String := ""
  x : Rat := 0
  y : Rat := 0
  size : Rat := 10
  classes : List String := []
  deriving DecidableEq, Repr

/-- SvgTextDirective.updateText: returns silently when this._text is null
or the text input is the empty string (both are falsy in the guard),
otherwise text(text), fill(color), font size, move(x, y). -/
def updateText (i : TextInputs) (shape : Option ShapeAttrs) : Option ShapeAttrs :=
  match shape with
  | none => none
  | some s =>
      if i.text = "" then some s
      else
        some (SvgJs.move (SvgJs.font (SvgJs.fill (SvgJs.text s i.text) i.color) i.size)
                i.x i.y)

/-!
Polyline directive, SvgBaseDirective subclass (src/unnamed/part_000).
-/

/-- Input properties of the polyline directive. -/
structure PolylineInputs where
  points : Option (List (Rat × Rat)) := none
  borderSize : Rat := 0
  borderColor : String := "#000"
  fill : String := "#000"
  classes : List String := []
  deriving DecidableEq, Repr

/-- SvgPolylineDirective.updateShape (base-class version): returns
silently when this._shape or this.points is null, otherwise
plot(points), fill(fill), stroke(borderColor, borderSize), then the
base-class addRemoveClasses(this.classes) and setCorrectPosition. -/
def polylineUpdateShape (i : PolylineInputs) (shape : Option ShapeAttrs) :
    Option ShapeAttrs :=
  match shape, i.points with
  | some s, some pts =>
      baseAddRemoveClasses
        (some (SvgJs.stroke (SvgJs.fill (SvgJs.plotPoly s pts) i.fill)
                i.borderColor i.borderSize))
        i.classes []
  | _, _ => shape

/-!
Polygon directive
(src/app/modules/directives/svg-polygon.directive.ts, standalone).
-/

/-- Input properties of the polygon directive. -/
structure PolygonInputs where
  points : Option (List (Rat × Rat)) := none
  borderSize : Rat := 0
  borderColor : String := "#000"
  fill : String := "#000"
  classes : List String := []
  deriving DecidableEq, Repr

/-- SvgPolygonDirective.updatePolygon: returns silently when
this._polygon or this.points is null, otherwise plot(points),
fill(fill), stroke(borderColor, borderSize), then setCorrectPosition
(container reordering). -/
def updatePolygon (i : PolygonInputs) (shape : Option ShapeAttrs) :
    Option ShapeAttrs :=
  match shape, i.points with
  | some s, some pts =>
      some (SvgJs.stroke (SvgJs.fill (SvgJs.plotPoly s pts) i.fill)
        i.borderColor i.borderSize)
  | _, _ => shape

/-!
Image directive (src/app/modules/directives/svg-image.directive.ts,
SvgBaseDirective subclass).
-/

/-- Input properties of the image directive. -/
structure ImageInputs where
  x : Rat := 0
  y : Rat := 0
  imageUrl : String := ""
  height : Rat := 100
  width : Rat := 100
  classes : List String := []
  deriving DecidableEq, Repr

/-- One Angular SimpleChange carrying a numeric input. -/
structure SimpleChangeR where
  previousValue : Rat
  currentValue : Rat
  deriving DecidableEq, Repr

/-- One Angular SimpleChange carrying a string input; strings are JS
primitives, so !== on them is value inequality. -/
structure SimpleChangeS where
  previousValue : String
  currentValue : String
  deriving DecidableEq, Repr

/-- Angular SimpleChanges record for the image directive. -/
structure ImageChanges where
  x : Option SimpleChangeR := none
  y : Option SimpleChangeR := none
  width : Option SimpleChangeR := none
  height : Option SimpleChangeR := none
  imageUrl : Option SimpleChangeS := none
  classes : Option ClassesChange := none
  deriving DecidableEq, Repr

/-- Truthiness of `c && c.currentValue !== c.previousValue` for a numeric
SimpleChange. -/
def changedR (c : Option SimpleChangeR) : Bool :=
  match c with
  | none => false
  | some ch => decide (ch.currentValue ≠ ch.previousValue)

/-- SvgImageDirective.loadImage: load(imageUrl), size(width, height),
move(x, y), then registers the four pointer handlers; each call adds
fresh listeners on top of any already registered. -/
def imageLoadImage (i : ImageInputs) (s : ShapeAttrs) : ShapeAttrs :=
  SvgJs.onPointerEvents
    (SvgJs.move (SvgJs.size (SvgJs.load s i.imageUrl) i.width i.height) i.x i.y)

/-- SvgImageDirective.updateImage: returns when the shape is null;
reloads the image (loadImage) when reloadImage is true, otherwise only
size(width, height) and move(x, y); then setCorrectPosition (container
reordering). -/
def imageUpdateImage (i : ImageInputs) (reloadImage : Bool)
    (shape : Option ShapeAttrs) : Option ShapeAttrs :=
  match shape with
  | none => none
  | some s =>
      some (if reloadImage then imageLoadImage i s
            else SvgJs.move (SvgJs.size s i.width i.height) i.x i.y)

/-- SvgImageDirective.createShape: assigns this._shape = container.image()
(a fresh, attribute-less image), loads it, then setCorrectPosition and the
base-class addRemoveClasses(this.classes). -/
def imageCreateShape (i : ImageInputs) : ShapeAttrs :=
  i.classes.foldl (fun t c => SvgJs.addClass t (jsTrim c))
    (imageLoadImage i ({} : ShapeAttrs))

/-- SvgImageDirective.ngOnChanges: only acts when the shape exists; when
the imageUrl change record is present with a different current value it
reloads the image, otherwise when one of x, y, width, height changed it
updates only the properties; afterwards it always runs the class diff
(whose result arrays are always truthy under !!) and applies it through
the base-class addRemoveClasses.  The class diff can throw, which
propagates out of ngOnChanges. -/
def imageNgOnChanges (i : ImageInputs) (changes : ImageChanges)
    (shape : Option ShapeAttrs) : Except JsError (Option ShapeAttrs) :=
  match shape with
  | none => .ok shape
  | some s =>
      let urlChanged : Bool :=
        match changes.imageUrl with
        | none => false
        | some u => decide (u.currentValue ≠ u.previousValue)
      let shape1 : Option ShapeAttrs :=
        if urlChanged then imageUpdateImage i true (some s)
        else if changedR changes.x || changedR changes.y ||
                changedR changes.width || changedR changes.height then
          imageUpdateImage i false (some s)
        else some s
      match getClassesToAddAndRemove changes.classes with
      | .error e => .error e
      | .ok diff =>
          .ok (baseAddRemoveClasses shape1 diff.classesToAdd diff.classesToRemove)

/-!
Path directives (src/unnamed/part_002 holds the SvgBaseDirective subclass
and the legacy standalone version).
-/

/-- Input properties of the path directives. -/
structure PathInputs where
  path : String := ""
  borderColor : String := "#000"
  borderSize : Rat := 2
  x : Rat := 0
  y : Rat := 0
  fill : String := ""
  classes : List String := []
  deriving DecidableEq, Repr

/-- Fill argument of the path directives: this.fill || rgba(0, 0, 0, 0);
the empty string is the only falsy string. -/
def pathFillValue (i : PathInputs) : String :=
  if i.fill = "" then "rgba(0, 0, 0, 0)" else i.fill

/-- Attribute chain shared by both path versions: plot(path),
stroke(borderColor, borderSize), fill(fill or transparent), move(x, y). -/
def pathApplyAttributes (i : PathInputs) (s : ShapeAttrs) : ShapeAttrs :=
  SvgJs.move (SvgJs.fill (SvgJs.stroke (SvgJs.plot s i.path) i.borderColor i.borderSize)
    (pathFillValue i)) i.x i.y

/-- SvgPathDirective.setAttributes (base-class version): returns silently
when this._shape is null, otherwise applies the attribute chain. -/
def pathSetAttributes (i : PathInputs) (shape : Option ShapeAttrs) : Option ShapeAttrs :=
  match shape with
  | none => none
  | some s => some (pathApplyAttributes i s)

/-- SvgPathDirective.updatePath (legacy standalone version): returns
silently when this._path is null, otherwise applies the same attribute
chain, then setCorrectPosition (container reordering). -/
def updatePath (i : PathInputs) (shape : Option ShapeAttrs) : Option ShapeAttrs :=
  match shape with
  | none => none
  | some s => some (pathApplyAttributes i s)

/-- SvgPathDirective addRemoveClasses (legacy standalone version):
optional-chains on this._path and does NOT trim the class names. -/
def legacyPathAddRemoveClasses (shape : Option ShapeAttrs)
    (classesToAdd classesToRemove : List String) : Option ShapeAttrs :=
  match shape with
  | none => none
  | some s =>
      some (classesToAdd.foldl SvgJs.addClass
              (classesToRemove.foldl SvgJs.removeClass s))

/-- SvgPathDirective.createShape (base-class version): assigns
this._shape = container.path(this.path), runs setAttributes (which plots
the same path string again), registers the pointer handlers, then
setCorrectPosition and the base-class (trimming) addRemoveClasses. -/
def pathCreateShape (i : PathInputs) : ShapeAttrs :=
  let s := SvgJs.plot ({} : ShapeAttrs) i.path
  let s := pathApplyAttributes i s
  let s := SvgJs.onPointerEvents s
  i.classes.foldl (fun t c => SvgJs.addClass t (jsTrim c)) s

/-- SvgPathDirective.createPath (legacy standalone version):
container.path(path).stroke(...).fill(...).move(...).on(...), then
setCorrectPosition and its own non-trimming addRemoveClasses. -/
def createPath (i : PathInputs) : ShapeAttrs :=
  let s := SvgJs.move
    (SvgJs.fill (SvgJs.stroke (SvgJs.plot ({} : ShapeAttrs) i.path)
       i.borderColor i.borderSize) (pathFillValue i)) i.x i.y
  let s := SvgJs.onPointerEvents s
  i.classes.foldl SvgJs.addClass s

/-- SvgPathDirective.updateShape (base-class version): setAttributes,
then the base-class (trimming) addRemoveClasses with the current classes,
then setCorrectPosition. -/
def pathUpdateShape (i : PathInputs) (shape : Option ShapeAttrs) : Option ShapeAttrs :=
  baseAddRemoveClasses (pathSetAttributes i shape) i.classes []

/-- SvgBaseDirective.ngOnChanges as inherited by the base-class path
directive: when the shape exists, updateShape, then the class diff
(which can throw) applied through the trimming addRemoveClasses — the
`!!classesToAdd` guard is always true for arrays. -/
def pathNgOnChangesNew (i : PathInputs) (record : Option ClassesChange)
    (shape : Option ShapeAttrs) : Except JsError (Option ShapeAttrs) :=
  match shape with
  | none => .ok shape
  | some _ =>
      let shape1 := pathUpdateShape i shape
      match getClassesToAddAndRemove record with
      | .error e => .error e
      | .ok diff =>
          .ok (baseAddRemoveClasses shape1 diff.classesToAdd diff.classesToRemove)

/-- SvgPathDirective.ngOnChanges (legacy standalone version): when the
path exists, updatePath, then the class diff applied through its
non-trimming addRemoveClasses. -/
def pathNgOnChangesLegacy (i : PathInputs) (record : Option ClassesChange)
    (shape : Option ShapeAttrs) : Except JsError (Option ShapeAttrs) :=
  match shape with
  | none => .ok shape
  | some _ =>
      let shape1 := updatePath i shape
      match getClassesToAddAndRemove record with
      | .error e => .error e
      | .ok diff =>
          .ok (legacyPathAddRemoveClasses shape1 diff.classesToAdd diff.classesToRemove)

/-- Lifecycle events fed identically to both path directive versions: a
view check (with the container ready or not), an input change carrying
the new input values together with the classes SimpleChange record, or
the destroy hook. -/
inductive PathEvent where
  | viewChecked (containerReady : Bool)
  | changes (newInputs : PathInputs) (record : Option ClassesChange)
  | destroy
  deriving DecidableEq, Repr

/-- Directive state shared by both path versions: the current input
values and the private shape field. -/
structure PathDirState where
  inputs : PathInputs
  shape : Option ShapeAttrs
  deriving DecidableEq, Repr

/-- One lifecycle step of the base-class path directive.  Angular writes
the new input values before invoking ngOnChanges; ngAfterViewChecked
creates the shape only when the container is ready and the shape is
null; ngOnDestroy removes the shape (the field keeps the reference). -/
def pathStepNew (st : PathDirState) (e : PathEvent) : Except JsError PathDirState :=
  match e with
  | .viewChecked ready =>
      match ready, st.shape with
      | true, none => .ok { st with shape := some (pathCreateShape st.inputs) }
      | _, _ => .ok st
  | .changes ni record =>
      match pathNgOnChangesNew ni record st.shape with
      | .error err => .error err
      | .ok sh => .ok { inputs := ni, shape := sh }
  | .destroy => .ok { st with shape := st.shape.map SvgJs.remove }

/-- One lifecycle step of the legacy standalone path directive. -/
def pathStepLegacy (st : PathDirState) (e : PathEvent) : Except JsError PathDirState :=
  match e with
  | .viewChecked ready =>
      match ready, st.shape with
      | true, none => .ok { st with shape := some (createPath st.inputs) }
      | _, _ => .ok st
  | .changes ni record =>
      match pathNgOnChangesLegacy ni record st.shape with
      | .error err => .error err
      | .ok sh => .ok { inputs := ni, shape := sh }
  | .destroy => .ok { st with shape := st.shape.map SvgJs.remove }

/-- Runs the base-class path directive over a lifecycle sequence. -/
def pathRunNew (st : PathDirState) : List PathEvent → Except JsError PathDirState
  | [] => .ok st
  | e :: es =>
      match pathStepNew st e with
      | .error err => .error err
      | .ok st2 => pathRunNew st2 es

/-- Runs the legacy standalone path directive over a lifecycle sequence. -/
def pathRunLegacy (st : PathDirState) : List PathEvent → Except JsError PathDirState
  | [] => .ok st
  | e :: es =>
      match pathStepLegacy st e with
      | .error err => .error err
      | .ok st2 => pathRunLegacy st2 es

/-- All class names in the list are whitespace-trimmed. -/
def trimmedClasses (cs : List String) : Bool :=
  cs.all (fun c => jsTrim c == c)

/-- A classes SimpleChange record is honest for a transition from
oldClasses to newClasses when it carries exactly those two arrays (the
way Angular produces records), and an absent record means the classes
input did not change; a record flagged as the same reference necessarily
carries equal contents. -/
def recordHonest (oldClasses newClasses : List String)
    (record : Option ClassesChange) : Bool :=
  match record with
  | none => decide (newClasses = oldClasses)
  | some r =>
      decide (r.previousValue = .arr oldClasses) &&
      decide (r.currentValue = .arr newClasses) &&
      (!r.sameRef || decide (newClasses = oldClasses))

/-- Every change event in the sequence carries an honest classes record
relative to the inputs in force when it fires. -/
def honestEvents (i : PathInputs) : List PathEvent → Bool
  | [] => true
  | PathEvent.changes ni record :: es =>
      recordHonest i.classes ni.classes record && honestEvents ni es
  | _ :: es => honestEvents i es

/-- Every change event in the sequence carries whitespace-trimmed class
names. -/
def trimmedEvents : List PathEvent → Bool
  | [] => true
  | PathEvent.changes ni _ :: es => trimmedClasses ni.classes && trimmedEvents es
  | _ :: es => trimmedEvents es

/-!
List-level view of the class mutations, used to reason about sequences of
addClass and removeClass calls.
-/

/-- Effect of one svg.js addClass call on the class list. -/
def addC (l : List String) (c : String) : List String :=
  if c ∈ l then l else l ++ [c]

/-- Effect of a run of addClass calls. -/
def addAllC (l : List String) (cs : List String) : List String :=
  cs.foldl addC l

/-- Effect of one svg.js removeClass call on the class list. -/
def remC (l : List String) (c : String) : List String :=
  l.filter (fun x => decide (x ≠ c))

/-- Effect of a run of removeClass calls. -/
def remAllC (l : List String) (cs : List String) : List String :=
  cs.foldl remC l

/-- The classes a run of addClass calls freshly appends after the existing
list (each one appended at most once and only when absent). -/
def addNew (base : List String) : List String → List String
  | [] => []
  | c :: cs => if c ∈ base then addNew base cs else c :: addNew (base ++ [c]) cs

/-- The classesToRemove list the diff utility computes from previous
classes P and current classes C. -/
def diffRemove (P C : List String) : List String :=
  P.filter (fun p => decide (p ∉ C))

/-- The classesToAdd list the diff utility computes from previous classes
P and current classes C. -/
def diffAdd (P C : List String) : List String :=
  C.filter (fun c => decide (c ∉ P))

/-- Propositional form of trimmedClasses. -/
def TrimmedL (cs : List String) : Prop := ∀ c ∈ cs, jsTrim c = c

/-- Invariant tying a path directive state to its shape: every class
currently requested by the inputs is present on the shape. -/
def ClassCover (st : PathDirState) : Prop :=
  ∀ s, st.shape = some s → ∀ c ∈ st.inputs.classes, c ∈ s.classes

/-!
Helper lemmas: lifting runs of addClass and removeClass to the list level.
-/

theorem addClass_eq (s : ShapeAttrs) (c : String) :
    SvgJs.addClass s c = { s with classes := addC s.classes c } := by
  by_cases h : c ∈ s.classes <;> simp [SvgJs.addClass, addC, h]

theorem removeClass_eq (s : ShapeAttrs) (c : String) :
    SvgJs.removeClass s c = { s with classes := remC s.classes c } := rfl

theorem foldl_addClass (cs : List String) (s : ShapeAttrs) :
    cs.foldl SvgJs.addClass s = { s with classes := addAllC s.classes cs } := by
  induction cs generalizing s with
  | nil => rfl
  | cons c cs ih => simp only [List.foldl_cons, addClass_eq, ih]; rfl

theorem foldl_removeClass (cs : List String) (s : ShapeAttrs) :
    cs.foldl SvgJs.removeClass s = { s with classes := remAllC s.classes cs } := by
  induction cs generalizing s with
  | nil => rfl
  | cons c cs ih => simp only [List.foldl_cons, removeClass_eq, ih]; rfl

theorem foldl_addClass_trim (cs : List String) (s : ShapeAttrs) :
    cs.foldl (fun t c => SvgJs.addClass t (jsTrim c)) s =
      (cs.map jsTrim).foldl SvgJs.addClass s :=
  (List.foldl_map _ _ _ _).symm

theorem foldl_removeClass_trim (cs : List String) (s : ShapeAttrs) :
    cs.foldl (fun t c => SvgJs.removeClass t (jsTrim c)) s =
      (cs.map jsTrim).foldl SvgJs.removeClass s :=
  (List.foldl_map _ _ _ _).symm

theorem trimmedClasses_iff (cs : List String) :
    trimmedClasses cs = true ↔ TrimmedL cs := by
  simp [trimmedClasses, TrimmedL, List.all_eq_true]

theorem TrimmedL.map_trim {cs : List String} (h : TrimmedL cs) :
    cs.map jsTrim = cs := by
  induction cs with
  | nil => rfl
  | cons c cs ih =>
      simp only [List.map_cons, h c (List.mem_cons_self c cs)]
      rw [ih fun x hx => h x (List.mem_cons_of_mem c hx)]

theorem TrimmedL.filter {cs : List String} (p : String → Bool) (h : TrimmedL cs) :
    TrimmedL (cs.filter p) :=
  fun c hc => h c (List.mem_of_mem_filter hc)

theorem addAllC_cons (l : List String) (c : String) (cs : List String) :
    addAllC l (c :: cs) = addAllC (addC l c) cs := rfl

theorem addAllC_eq_append (cs : List String) (l : List String) :
    addAllC l cs = l ++ addNew l cs := by
  induction cs generalizing l with
  | nil => simp [addAllC, addNew]
  | cons c cs ih =>
      rw [addAllC_cons]
      by_cases h : c ∈ l
      · rw [show addC l c = l from if_pos h, ih]
        simp [addNew, h]
      · rw [show addC l c = l ++ [c] from if_neg h, ih]
        simp [addNew, h]

theorem mem_addC_of_mem {x : String} {l : List String} (c : String) (h : x ∈ l) :
    x ∈ addC l c := by
  unfold addC; split
  · exact h
  · exact List.mem_append_left _ h

theorem mem_addC_self (l : List String) (c : String) : c ∈ addC l c := by
  unfold addC; split
  · assumption
  · exact List.mem_append_right _ (List.mem_singleton.2 rfl)

theorem mem_addAllC_of_mem_base {x : String} {l : List String} (cs : List String)
    (h : x ∈ l) : x ∈ addAllC l cs := by
  induction cs generalizing l with
  | nil => exact h
  | cons c cs ih => exact ih (mem_addC_of_mem c h)

theorem mem_addAllC_of_mem {x : String} {cs : List String} (l : List String)
    (h : x ∈ cs) : x ∈ addAllC l cs := by
  induction cs generalizing l with
  | nil => cases h
  | cons c cs ih =>
      rcases List.mem_cons.1 h with rfl | h2
      · exact mem_addAllC_of_mem_base cs (mem_addC_self l x)
      · exact ih (addC l c) h2

theorem addNew_eq_nil_of_subset {cs base : List String} (h : ∀ c ∈ cs, c ∈ base) :
    addNew base cs = [] := by
  induction cs with
  | nil => rfl
  | cons c cs ih =>
      simp only [addNew, if_pos (h c (List.mem_cons_self c cs))]
      exact ih fun x hx => h x (List.mem_cons_of_mem c hx)

theorem not_mem_base_of_mem_addNew {y : String} :
    ∀ {cs base : List String}, y ∈ addNew base cs → y ∉ base := by
  intro cs
  induction cs with
  | nil => intro base h; cases h
  | cons c cs ih =>
      intro base h
      by_cases hc : c ∈ base
      · simp only [addNew, if_pos hc] at h
        exact ih h
      · simp only [addNew, if_neg hc] at h
        rcases List.mem_cons.1 h with rfl | h2
        · exact hc
        · intro hy
          exact ih h2 (List.mem_append_left _ hy)

theorem addNew_congr : ∀ (cs : List String) {b1 b2 : List String},
    (∀ x ∈ cs, x ∈ b1 ↔ x ∈ b2) → addNew b1 cs = addNew b2 cs := by
  intro cs
  induction cs with
  | nil => intro b1 b2 _; rfl
  | cons c cs ih =>
      intro b1 b2 h
      have hc := h c (List.mem_cons_self c cs)
      by_cases h1 : c ∈ b1
      · have h2 : c ∈ b2 := hc.1 h1
        simp only [addNew, if_pos h1, if_pos h2]
        exact ih fun x hx => h x (List.mem_cons_of_mem c hx)
      · have h2 : c ∉ b2 := fun hh => h1 (hc.2 hh)
        simp only [addNew, if_neg h1, if_neg h2]
        congr 1
        refine ih fun x hx => ?_
        simp only [List.mem_append, List.mem_singleton]
        exact or_congr (h x (List.mem_cons_of_mem c hx)) Iff.rfl

theorem addNew_filter {p : String → Bool} :
    ∀ (cs base : List String),
    (∀ c ∈ cs, p c = false → c ∈ base) →
    addNew base (cs.filter p) = addNew base cs := by
  intro cs
  induction cs with
  | nil => intro base _; rfl
  | cons c cs ih =>
      intro base h
      cases hp : p c with
      | true =>
          rw [List.filter_cons_of_pos hp]
          by_cases hc : c ∈ base
          · simp only [addNew, if_pos hc]
            exact ih base fun x hx hpx => h x (List.mem_cons_of_mem c hx) hpx
          · simp only [addNew, if_neg hc]
            congr 1
            exact ih (base ++ [c]) fun x hx hpx =>
              List.mem_append_left _ (h x (List.mem_cons_of_mem c hx) hpx)
      | false =>
          rw [List.filter_cons_of_neg (by simp [hp])]
          have hcb : c ∈ base := h c (List.mem_cons_self c cs) hp
          simp only [addNew, if_pos hcb]
          exact ih base fun x hx hpx => h x (List.mem_cons_of_mem c hx) hpx

theorem remAllC_eq_filter : ∀ (cs l : List String),
    remAllC l cs = l.filter (fun x => decide (x ∉ cs)) := by
  intro cs
  induction cs with
  | nil => intro l; simp [remAllC]
  | cons c cs ih =>
      intro l
      rw [show remAllC l (c :: cs) = remAllC (remC l c) cs from rfl, ih, remC,
        List.filter_filter]
      refine List.filter_congr fun x _ => ?_
      simp [List.mem_cons, not_or, Bool.and_comm]

theorem getClasses_ok_of_arrays (P C : List String) :
    getClassesToAddAndRemove (some ⟨.arr P, .arr C, false⟩) =
      .ok ⟨diffAdd P C, diffRemove P C⟩ := rfl

/-- Key class-list fact: re-adding all the current classes before applying
the previous/current diff (what the base-class updateShape does) produces
the same class list as applying the diff alone (what the legacy directive
does), provided every previous class is already on the shape. -/
theorem classUpdate_equiv (S P C : List String) (hP : ∀ p ∈ P, p ∈ S) :
    addAllC (remAllC (addAllC S C) (diffRemove P C)) (diffAdd P C) =
    addAllC (remAllC S (diffRemove P C)) (diffAdd P C) := by
  have hRS : ∀ r ∈ diffRemove P C, r ∈ S :=
    fun r hr => hP r (List.mem_of_mem_filter hr)
  have hRP : ∀ r ∈ diffRemove P C, r ∈ P :=
    fun r hr => List.mem_of_mem_filter hr
  have hRnotC : ∀ r ∈ diffRemove P C, r ∉ C := fun r hr => by
    have := List.of_mem_filter hr
    simpa using this
  have hAC : ∀ a ∈ diffAdd P C, a ∈ C :=
    fun a ha => List.mem_of_mem_filter ha
  have hAnotP : ∀ a ∈ diffAdd P C, a ∉ P := fun a ha => by
    have := List.of_mem_filter ha
    simpa using this
  have h1 : addAllC S C = S ++ addNew S C := addAllC_eq_append C S
  have hNnotS : ∀ y ∈ addNew S C, y ∉ S :=
    fun y hy => not_mem_base_of_mem_addNew hy
  have h2 : remAllC (S ++ addNew S C) (diffRemove P C) =
      S.filter (fun x => decide (x ∉ diffRemove P C)) ++ addNew S C := by
    rw [remAllC_eq_filter, List.filter_append]
    congr 1
    refine List.filter_eq_self.2 fun y hy => ?_
    have hyn : y ∉ diffRemove P C := fun hyR => hNnotS y hy (hRS y hyR)
    simpa using hyn
  have h3 : remAllC S (diffRemove P C) =
      S.filter (fun x => decide (x ∉ diffRemove P C)) :=
    remAllC_eq_filter (diffRemove P C) S
  have hbase2 : addNew (S.filter (fun x => decide (x ∉ diffRemove P C)))
      (diffAdd P C) = addNew S C := by
    have hdrop : addNew (S.filter (fun x => decide (x ∉ diffRemove P C)))
        (diffAdd P C) =
        addNew (S.filter (fun x => decide (x ∉ diffRemove P C))) C := by
      refine addNew_filter C _ fun c hc hpc => ?_
      have hcP : c ∈ P := by
        by_contra hcn
        simp [hcn] at hpc
      have hcS : c ∈ S := hP c hcP
      have hcnotR : c ∉ diffRemove P C := fun hcR => hRnotC c hcR hc
      exact List.mem_filter.2 ⟨hcS, by simpa using hcnotR⟩
    rw [hdrop]
    refine addNew_congr C fun x hx => ?_
    constructor
    · exact fun hxf => (List.mem_filter.1 hxf).1
    · intro hxS
      have hxnotR : x ∉ diffRemove P C := fun hxR => hRnotC x hxR hx
      exact List.mem_filter.2 ⟨hxS, by simpa using hxnotR⟩
  have hnil : addNew (S.filter (fun x => decide (x ∉ diffRemove P C)) ++ addNew S C)
      (diffAdd P C) = [] := by
    refine addNew_eq_nil_of_subset fun a ha => ?_
    by_cases haS : a ∈ S
    · have hanotR : a ∉ diffRemove P C := fun haR => hAnotP a ha (hRP a haR)
      exact List.mem_append_left _ (List.mem_filter.2 ⟨haS, by simpa using hanotR⟩)
    · have hmem : a ∈ addAllC S C := mem_addAllC_of_mem S (hAC a ha)
      rw [h1] at hmem
      rcases List.mem_append.1 hmem with h | h
      · exact absurd h haS
      · exact List.mem_append_right _ h
  calc addAllC (remAllC (addAllC S C) (diffRemove P C)) (diffAdd P C)
      = (S.filter (fun x => decide (x ∉ diffRemove P C)) ++ addNew S C) ++
          addNew (S.filter (fun x => decide (x ∉ diffRemove P C)) ++ addNew S C)
            (diffAdd P C) := by
        rw [h1, h2, addAllC_eq_append]
    _ = S.filter (fun x => decide (x ∉ diffRemove P C)) ++ addNew S C := by
        rw [hnil, List.append_nil]
    _ = addAllC (remAllC S (diffRemove P C)) (diffAdd P C) := by
        rw [h3, addAllC_eq_append, hbase2]

/-- Re-adding classes that are all already present changes nothing. -/
theorem addAllC_eq_self {S C : List String} (h : ∀ c ∈ C, c ∈ S) :
    addAllC S C = S := by
  rw [addAllC_eq_append, addNew_eq_nil_of_subset h, List.append_nil]

theorem TrimmedL.nil : TrimmedL [] := fun c hc => absurd hc (List.not_mem_nil c)

theorem baseAddRemoveClasses_some (s : ShapeAttrs) (ca cr : List String)
    (hca : TrimmedL ca) (hcr : TrimmedL cr) :
    baseAddRemoveClasses (some s) ca cr =
      some { s with classes := addAllC (remAllC s.classes cr) ca } := by
  show some (ca.foldl (fun t c => SvgJs.addClass t (jsTrim c))
        (cr.foldl (fun t c => SvgJs.removeClass t (jsTrim c)) s)) = _
  rw [foldl_removeClass_trim, hcr.map_trim, foldl_removeClass,
    foldl_addClass_trim, hca.map_trim, foldl_addClass]

theorem legacyPathAddRemoveClasses_some (s : ShapeAttrs) (ca cr : List String) :
    legacyPathAddRemoveClasses (some s) ca cr =
      some { s with classes := addAllC (remAllC s.classes cr) ca } := by
  show some (ca.foldl SvgJs.addClass (cr.foldl SvgJs.removeClass s)) = _
  rw [foldl_removeClass, foldl_addClass]

theorem baseAddRemoveClasses_some_eq (s : ShapeAttrs) (ca cr : List String) :
    baseAddRemoveClasses (some s) ca cr =
      some { s with
        classes := addAllC (remAllC s.classes (cr.map jsTrim)) (ca.map jsTrim) } := by
  show some (ca.foldl (fun t c => SvgJs.addClass t (jsTrim c))
        (cr.foldl (fun t c => SvgJs.removeClass t (jsTrim c)) s)) = _
  rw [foldl_removeClass_trim, foldl_removeClass, foldl_addClass_trim, foldl_addClass]

theorem pathApplyAttributes_classes (i : PathInputs) (s : ShapeAttrs) :
    (pathApplyAttributes i s).classes = s.classes := rfl

/-- With trimmed class names, the two path creation routines build the
same shape: the only differences are the trimming and an extra plot of
the identical path string. -/
theorem pathCreate_eq (i : PathInputs) (ht : TrimmedL i.classes) :
    pathCreateShape i = createPath i := by
  unfold pathCreateShape createPath
  rw [foldl_addClass_trim, ht.map_trim]
  rfl

/-- Behaviour of pathUpdateShape on an existing shape: the attribute
chain followed by a trimmed re-add of all current classes. -/
theorem pathUpdateShape_some (i : PathInputs) (s : ShapeAttrs)
    (ht : TrimmedL i.classes) :
    pathUpdateShape i (some s) =
      some { pathApplyAttributes i s with
             classes := addAllC s.classes i.classes } := by
  show baseAddRemoveClasses (some (pathApplyAttributes i s)) i.classes [] = _
  rw [baseAddRemoveClasses_some _ _ _ ht TrimmedL.nil]
  rfl

/-- On an honest change record with trimmed class names, the two path
ngOnChanges implementations agree, never throw, and leave every
currently requested class on the shape. -/
theorem pathChanges_results (iOld ni : PathInputs) (s : ShapeAttrs)
    (record : Option ClassesChange)
    (hcov : ∀ c ∈ iOld.classes, c ∈ s.classes)
    (hrec : recordHonest iOld.classes ni.classes record = true)
    (htrimN : TrimmedL ni.classes) (htrimO : TrimmedL iOld.classes) :
    ∃ t : ShapeAttrs,
      pathNgOnChangesNew ni record (some s) = .ok (some t) ∧
      pathNgOnChangesLegacy ni record (some s) = .ok (some t) ∧
      (∀ c ∈ ni.classes, c ∈ t.classes) := by
  have hs2c : (pathApplyAttributes ni s).classes = s.classes := rfl
  have hupd := pathUpdateShape_some ni s htrimN
  -- the case where the diff is empty and the current classes equal the old
  have hsame : ni.classes = iOld.classes →
      getClassesToAddAndRemove record = .ok ⟨[], []⟩ →
      ∃ t : ShapeAttrs,
        pathNgOnChangesNew ni record (some s) = .ok (some t) ∧
        pathNgOnChangesLegacy ni record (some s) = .ok (some t) ∧
        (∀ c ∈ ni.classes, c ∈ t.classes) := by
    intro heq hdiff
    refine ⟨pathApplyAttributes ni s, ?_, ?_, ?_⟩
    · show (match (some s : Option ShapeAttrs) with
        | none => Except.ok (some s)
        | some _ =>
          match getClassesToAddAndRemove record with
          | .error e => .error e
          | .ok diff =>
              .ok (baseAddRemoveClasses (pathUpdateShape ni (some s))
                    diff.classesToAdd diff.classesToRemove)) =
        Except.ok (some (pathApplyAttributes ni s))
      rw [hdiff]
      show Except.ok (baseAddRemoveClasses (pathUpdateShape ni (some s)) [] []) = _
      rw [hupd, baseAddRemoveClasses_some _ _ _ TrimmedL.nil TrimmedL.nil]
      show Except.ok (some { pathApplyAttributes ni s with
        classes := addAllC s.classes ni.classes }) = _
      rw [heq, addAllC_eq_self hcov]
      rfl
    · show (match (some s : Option ShapeAttrs) with
        | none => Except.ok (some s)
        | some _ =>
          match getClassesToAddAndRemove record with
          | .error e => .error e
          | .ok diff =>
              .ok (legacyPathAddRemoveClasses (updatePath ni (some s))
                    diff.classesToAdd diff.classesToRemove)) =
        Except.ok (some (pathApplyAttributes ni s))
      rw [hdiff]
      show Except.ok (legacyPathAddRemoveClasses (some (pathApplyAttributes ni s)) [] []) = _
      rw [legacyPathAddRemoveClasses_some]
      rfl
    · intro c hc
      rw [hs2c]
      exact hcov c (heq ▸ hc)
  match record, hrec with
  | none, hrec =>
      have heq : ni.classes = iOld.classes := by
        simpa [recordHonest] using hrec
      exact hsame heq rfl
  | some r, hrec =>
      obtain ⟨pv, cv, sr⟩ := r
      have hrec2 := hrec
      simp only [recordHonest, Bool.and_eq_true, decide_eq_true_eq] at hrec2
      obtain ⟨⟨hprev, hcur⟩, hsr⟩ := hrec2
      subst hprev hcur
      cases sr with
      | true =>
          have heq : ni.classes = iOld.classes := by simpa using hsr
          exact hsame heq rfl
      | false =>
          have hdiff := getClasses_ok_of_arrays iOld.classes ni.classes
          refine ⟨{ pathApplyAttributes ni s with
            classes := addAllC (remAllC s.classes (diffRemove iOld.classes ni.classes))
              (diffAdd iOld.classes ni.classes) }, ?_, ?_, ?_⟩
          · show (match getClassesToAddAndRemove
                (some ⟨.arr iOld.classes, .arr ni.classes, false⟩) with
              | .error e => Except.error e
              | .ok diff =>
                  .ok (baseAddRemoveClasses (pathUpdateShape ni (some s))
                        diff.classesToAdd diff.classesToRemove)) = _
            rw [hdiff]
            show Except.ok (baseAddRemoveClasses (pathUpdateShape ni (some s))
              (diffAdd iOld.classes ni.classes) (diffRemove iOld.classes ni.classes)) = _
            have htA : TrimmedL (diffAdd iOld.classes ni.classes) := htrimN.filter _
            have htR : TrimmedL (diffRemove iOld.classes ni.classes) := htrimO.filter _
            rw [hupd, baseAddRemoveClasses_some _ _ _ htA htR]
            show Except.ok (some { pathApplyAttributes ni s with
              classes := addAllC (remAllC (addAllC s.classes ni.classes)
                (diffRemove iOld.classes ni.classes))
                (diffAdd iOld.classes ni.classes) }) = _
            rw [classUpdate_equiv s.classes iOld.classes ni.classes hcov]
          · show (match getClassesToAddAndRemove
                (some ⟨.arr iOld.classes, .arr ni.classes, false⟩) with
              | .error e => Except.error e
              | .ok diff =>
                  .ok (legacyPathAddRemoveClasses (updatePath ni (some s))
                        diff.classesToAdd diff.classesToRemove)) = _
            rw [hdiff]
            show Except.ok (legacyPathAddRemoveClasses
              (some (pathApplyAttributes ni s))
              (diffAdd iOld.classes ni.classes) (diffRemove iOld.classes ni.classes)) = _
            rw [legacyPathAddRemoveClasses_some]
            rfl
          · intro c hc
            by_cases hcP : c ∈ iOld.classes
            · have hcS : c ∈ s.classes := hcov c hcP
              have hcnotR : c ∉ diffRemove iOld.classes ni.classes := by
                intro hcR
                have := List.of_mem_filter hcR
                simp at this
                exact this hc
              refine mem_addAllC_of_mem_base _ ?_
              rw [remAllC_eq_filter]
              exact List.mem_filter.2 ⟨hcS, by simpa using hcnotR⟩
            · refine mem_addAllC_of_mem _ ?_
              exact List.mem_filter.2 ⟨hc, by simpa using hcP⟩

theorem createPath_classes (i : PathInputs) :
    (createPath i).classes = addAllC [] i.classes := by
  unfold createPath
  rw [foldl_addClass]
  rfl

/-- Lifecycle equivalence of the two path directive versions over honest,
trimmed event sequences. -/
theorem pathRun_equiv : ∀ (events : List PathEvent) (st : PathDirState),
    ClassCover st → TrimmedL st.inputs.classes →
    honestEvents st.inputs events = true → trimmedEvents events = true →
    pathRunNew st events = pathRunLegacy st events := by
  intro events
  induction events with
  | nil => intro st _ _ _ _; rfl
  | cons e es ih =>
      rintro ⟨i, sh⟩ hcov htrim hhon htre
      cases e with
      | viewChecked ready =>
          have hhon2 : honestEvents i es = true := hhon
          have htre2 : trimmedEvents es = true := htre
          cases ready with
          | false =>
              show pathRunNew ⟨i, sh⟩ es = pathRunLegacy ⟨i, sh⟩ es
              exact ih ⟨i, sh⟩ hcov htrim hhon2 htre2
          | true =>
              cases sh with
              | some s =>
                  show pathRunNew ⟨i, some s⟩ es = pathRunLegacy ⟨i, some s⟩ es
                  exact ih ⟨i, some s⟩ hcov htrim hhon2 htre2
              | none =>
                  show pathRunNew ⟨i, some (pathCreateShape i)⟩ es =
                    pathRunLegacy ⟨i, some (createPath i)⟩ es
                  rw [pathCreate_eq i htrim]
                  refine ih _ ?_ htrim hhon2 htre2
                  rintro t ht c hc
                  cases ht
                  rw [createPath_classes]
                  exact mem_addAllC_of_mem _ hc
      | changes ni record =>
          have hsplit : recordHonest i.classes ni.classes record = true ∧
              honestEvents ni es = true := by
            have h : (recordHonest i.classes ni.classes record &&
                honestEvents ni es) = true := hhon
            rw [Bool.and_eq_true] at h
            exact h
          have htsplit : trimmedClasses ni.classes = true ∧
              trimmedEvents es = true := by
            have h : (trimmedClasses ni.classes && trimmedEvents es) = true := htre
            rw [Bool.and_eq_true] at h
            exact h
          have htN : TrimmedL ni.classes := (trimmedClasses_iff _).1 htsplit.1
          cases sh with
          | none =>
              show pathRunNew ⟨ni, none⟩ es = pathRunLegacy ⟨ni, none⟩ es
              refine ih ⟨ni, none⟩ ?_ htN hsplit.2 htsplit.2
              rintro t ht
              cases ht
          | some s =>
              have hcovS : ∀ c ∈ i.classes, c ∈ s.classes := hcov s rfl
              obtain ⟨t, hnew, hleg, hcovt⟩ :=
                pathChanges_results i ni s record hcovS hsplit.1 htN htrim
              have hstepN : pathStepNew ⟨i, some s⟩ (.changes ni record) =
                  .ok ⟨ni, some t⟩ := by
                show (match pathNgOnChangesNew ni record (some s) with
                  | .error err => Except.error err
                  | .ok sh2 => .ok ({ inputs := ni, shape := sh2 } : PathDirState)) = _
                rw [hnew]
              have hstepL : pathStepLegacy ⟨i, some s⟩ (.changes ni record) =
                  .ok ⟨ni, some t⟩ := by
                show (match pathNgOnChangesLegacy ni record (some s) with
                  | .error err => Except.error err
                  | .ok sh2 => .ok ({ inputs := ni, shape := sh2 } : PathDirState)) = _
                rw [hleg]
              show (match pathStepNew ⟨i, some s⟩ (.changes ni record) with
                | .error err => Except.error err
                | .ok st2 => pathRunNew st2 es) =
                (match pathStepLegacy ⟨i, some s⟩ (.changes ni record) with
                | .error err => Except.error err
                | .ok st2 => pathRunLegacy st2 es)
              rw [hstepN, hstepL]
              refine ih ⟨ni, some t⟩ ?_ htN hsplit.2 htsplit.2
              rintro u hu c hc
              cases hu
              exact hcovt c hc
      | destroy =>
          have hhon2 : honestEvents i es = true := hhon
          have htre2 : trimmedEvents es = true := htre
          show pathRunNew ⟨i, sh.map SvgJs.remove⟩ es =
            pathRunLegacy ⟨i, sh.map SvgJs.remove⟩ es
          refine ih ⟨i, sh.map SvgJs.remove⟩ ?_ htrim hhon2 htre2
          rintro t ht c hc
          cases sh with
          | none => cases ht
          | some s =>
              have ht2 : SvgJs.remove s = t := by
                simpa using ht
              cases ht2
              exact hcov s rfl c hc

/-!
Claim theorems.
-/

/-- C1 (code bug): the standalone SvgEllipseDirective does NOT create its
shape at most once.  createEllipse builds the ellipse in the container
but never assigns it to this._ellipse, so this._ellipse stays null, every
ngAfterViewChecked runs createEllipse again, and each run adds one more
ellipse to the container (and onInitialize never fires).  Starting from a
ready empty container, two view checks leave two ellipses. -/
theorem C1_standalone_ellipse_creates_repeatedly :
    legacyEllipseAfterViewChecked ⟨some ⟨[], 0⟩, none⟩ =
      ⟨some ⟨[0], 1⟩, none⟩ ∧
    legacyEllipseAfterViewChecked (legacyEllipseAfterViewChecked ⟨some ⟨[], 0⟩, none⟩) =
      ⟨some ⟨[0, 1], 2⟩, none⟩ := by
  exact ⟨rfl, rfl⟩

/-- C2: getClassesToAddAndRemove returns, for a present classes entry
with array values and differing references, classesToRemove = exactly the
elements of previousValue not occurring in currentValue and classesToAdd
= exactly the elements of currentValue not occurring in previousValue;
for an absent entry or identical references both lists are empty. -/
theorem C2_getClassesToAddAndRemove_correct :
    (∀ prev cur : List String,
      getClassesToAddAndRemove
          (some ⟨.arr prev, .arr cur, false⟩) =
        .ok ⟨diffAdd prev cur, diffRemove prev cur⟩ ∧
      (∀ x, x ∈ diffRemove prev cur ↔ x ∈ prev ∧ x ∉ cur) ∧
      (∀ x, x ∈ diffAdd prev cur ↔ x ∈ cur ∧ x ∉ prev)) ∧
    getClassesToAddAndRemove none = .ok ⟨[], []⟩ ∧
    (∀ ch : ClassesChange, ch.sameRef = true →
      getClassesToAddAndRemove (some ch) = .ok ⟨[], []⟩) := by
  refine ⟨fun prev cur => ⟨rfl, ?_, ?_⟩, rfl, fun ch h => ?_⟩
  · intro x; simp [diffRemove, List.mem_filter]
  · intro x; simp [diffAdd, List.mem_filter]
  · simp [getClassesToAddAndRemove, h]

/-- Witness for C2 at concrete inputs. -/
theorem C2_getClassesToAddAndRemove_correct_witness :
    ({ previousValue := .arr ["a"], currentValue := .arr ["a"],
       sameRef := true } : ClassesChange).sameRef = true ∧
    getClassesToAddAndRemove
        (some { previousValue := .arr ["a"], currentValue := .arr ["a"],
                sameRef := true }) = .ok ⟨[], []⟩ ∧
    getClassesToAddAndRemove
        (some ⟨.arr ["a", "b"], .arr ["b", "c"], false⟩) =
      .ok ⟨diffAdd ["a", "b"] ["b", "c"], diffRemove ["a", "b"] ["b", "c"]⟩ :=
  ⟨rfl,
   C2_getClassesToAddAndRemove_correct.2.2 _ rfl,
   (C2_getClassesToAddAndRemove_correct.1 ["a", "b"] ["b", "c"]).1⟩

/-- C10: getClassesToAddAndRemove throws a TypeError whenever the classes
entry is present with a non-array (undefined) previousValue and a
differing currentValue, and its caller SvgImageDirective.ngOnChanges
guards only on shape existence, so the exception propagates out of
ngOnChanges whenever the shape exists. -/
theorem C10_diff_throws_on_undefined_previous :
    (∀ cur : List String,
      getClassesToAddAndRemove (some ⟨.undef, .arr cur, false⟩) =
        .error (.typeError "classes.previousValue.filter is not a function")) ∧
    (∀ (i : ImageInputs) (s : ShapeAttrs) (cur : List String),
      imageNgOnChanges i { classes := some ⟨.undef, .arr cur, false⟩ } (some s) =
        .error (.typeError "classes.previousValue.filter is not a function")) :=
  ⟨fun _ => rfl, fun _ _ _ => rfl⟩

/-- C5: ngOnDestroy removes exactly the directive's shape from the
container when one was created, is a pure no-op when none was, and never
touches the directive's own field. -/
theorem C5_ngOnDestroy_contract (shape : Option Nat) (c : List Nat) :
    ((ngOnDestroy shape c).1 = shape) ∧
    (shape = none → ngOnDestroy shape c = (none, c)) ∧
    (∀ s, shape = some s →
      (ngOnDestroy shape c).2 = c.erase s ∧
      (c.Nodup → s ∉ (ngOnDestroy shape c).2) ∧
      (∀ x, x ≠ s → (x ∈ (ngOnDestroy shape c).2 ↔ x ∈ c))) := by
  refine ⟨?_, ?_, ?_⟩
  · cases shape <;> rfl
  · rintro rfl; rfl
  · rintro s rfl
    refine ⟨rfl, fun hnd => hnd.not_mem_erase, fun x hx => ?_⟩
    exact List.mem_erase_of_ne hx

/-- Witness for C5 at a concrete container. -/
theorem C5_ngOnDestroy_contract_witness :
    (ngOnDestroy (some 1) [0, 1, 2]).2 = [0, 1, 2].erase 1 ∧
    1 ∉ (ngOnDestroy (some 1) [0, 1, 2]).2 ∧
    (0 ∈ (ngOnDestroy (some 1) [0, 1, 2]).2 ↔ 0 ∈ [0, 1, 2]) := by
  have h := (C5_ngOnDestroy_contract (some 1) [0, 1, 2]).2.2 1 rfl
  exact ⟨h.1, h.2.1 (by decide), h.2.2 0 (by decide)⟩

/-- C4 counterexample: the path directive does not preserve an empty
fill input; with fill set to the empty string the shape's fill attribute
becomes the transparent fallback, not the empty string. -/
theorem C4_counterexample_path_empty_fill :
    ({} : PathInputs).fill = "" ∧
    (pathSetAttributes {} (some {})).map ShapeAttrs.fill =
      some "rgba(0, 0, 0, 0)" ∧
    "rgba(0, 0, 0, 0)" ≠ "" := by
  refine ⟨rfl, rfl, by decide⟩

theorem foldl_addClass_trim_eq_record (cs : List String) (s : ShapeAttrs) :
    cs.foldl (fun t c => SvgJs.addClass t (jsTrim c)) s =
      { s with classes := addAllC s.classes (cs.map jsTrim) } := by
  rw [foldl_addClass_trim, foldl_addClass]

/-- C4 (amended): every directive's update writes the fill/color input
verbatim into the shape's fill attribute, except that: the path versions
substitute the transparent fallback rgba(0, 0, 0, 0) when the fill input
is the empty string; the text directive's update is a complete no-op
(fill untouched) when its text input is empty; and the polyline and
polygon updates are complete no-ops (fill untouched) when their points
input is null. -/
theorem C4_fill_amended :
    (∀ (i : PathInputs) (s : ShapeAttrs), i.fill ≠ "" →
      (pathSetAttributes i (some s)).map ShapeAttrs.fill = some i.fill ∧
      (updatePath i (some s)).map ShapeAttrs.fill = some i.fill) ∧
    (∀ (i : PathInputs) (s : ShapeAttrs), i.fill = "" →
      (pathSetAttributes i (some s)).map ShapeAttrs.fill =
        some "rgba(0, 0, 0, 0)" ∧
      (updatePath i (some s)).map ShapeAttrs.fill = some "rgba(0, 0, 0, 0)") ∧
    (∀ (i : RectInputs) (s : ShapeAttrs),
      (updateRect i (some s)).map ShapeAttrs.fill = some i.color) ∧
    (∀ (i : TextInputs) (s : ShapeAttrs), i.text ≠ "" →
      (updateText i (some s)).map ShapeAttrs.fill = some i.color) ∧
    (∀ (i : TextInputs) (s : ShapeAttrs), i.text = "" →
      updateText i (some s) = some s) ∧
    (∀ (i : CircleInputs) (s : ShapeAttrs),
      (updateCircle i (some s)).map ShapeAttrs.fill = some i.color) ∧
    (∀ (i : PolylineInputs) (s : ShapeAttrs) (pts : List (Rat × Rat)),
      i.points = some pts →
      (polylineUpdateShape i (some s)).map ShapeAttrs.fill = some i.fill) ∧
    (∀ (i : PolylineInputs) (s : ShapeAttrs), i.points = none →
      polylineUpdateShape i (some s) = some s) ∧
    (∀ (i : PolygonInputs) (s : ShapeAttrs) (pts : List (Rat × Rat)),
      i.points = some pts →
      (updatePolygon i (some s)).map ShapeAttrs.fill = some i.fill) ∧
    (∀ (i : PolygonInputs) (s : ShapeAttrs), i.points = none →
      updatePolygon i (some s) = some s) := by
  refine ⟨fun i s h => ⟨?_, ?_⟩, fun i s h => ⟨?_, ?_⟩, fun i s => ?_,
    fun i s h => ?_, fun i s h => ?_, fun i s => ?_, fun i s pts h => ?_,
    fun i s h => ?_, fun i s pts h => ?_, fun i s h => ?_⟩
  · simp [pathSetAttributes, pathApplyAttributes, pathFillValue, h,
      SvgJs.move, SvgJs.fill, SvgJs.stroke, SvgJs.plot]
  · simp [updatePath, pathApplyAttributes, pathFillValue, h,
      SvgJs.move, SvgJs.fill, SvgJs.stroke, SvgJs.plot]
  · simp [pathSetAttributes, pathApplyAttributes, pathFillValue, h,
      SvgJs.move, SvgJs.fill, SvgJs.stroke, SvgJs.plot]
  · simp [updatePath, pathApplyAttributes, pathFillValue, h,
      SvgJs.move, SvgJs.fill, SvgJs.stroke, SvgJs.plot]
  · simp [updateRect, SvgJs.move, SvgJs.radius, SvgJs.fill, SvgJs.size]
  · simp [updateText, h, SvgJs.move, SvgJs.font, SvgJs.fill, SvgJs.text]
  · simp [updateText, h]
  · simp [updateCircle, SvgJs.attrCy, SvgJs.attrCx, SvgJs.fill, SvgJs.sizeD]
  · simp [polylineUpdateShape, h, baseAddRemoveClasses,
      foldl_addClass_trim_eq_record, SvgJs.stroke, SvgJs.fill, SvgJs.plotPoly]
  · simp [polylineUpdateShape, h]
  · simp [updatePolygon, h, SvgJs.stroke, SvgJs.fill, SvgJs.plotPoly]
  · simp [updatePolygon, h]

/-- Witness for C4 (amended) at concrete inputs. -/
theorem C4_fill_amended_witness :
    ("#fff" : String) ≠ "" ∧
    (pathSetAttributes { fill := "#fff" } (some {})).map ShapeAttrs.fill =
      some ({ fill := "#fff" } : PathInputs).fill ∧
    ("hello" : String) ≠ "" ∧
    (updateText { text := "hello" } (some {})).map ShapeAttrs.fill =
      some ({ text := "hello" } : TextInputs).color ∧
    ({ points := some [((1 : Rat), (2 : Rat))] } : PolylineInputs).points =
      some [((1 : Rat), (2 : Rat))] ∧
    (polylineUpdateShape { points := some [((1 : Rat), (2 : Rat))] }
        (some {})).map ShapeAttrs.fill =
      some ({ points := some [((1 : Rat), (2 : Rat))] } : PolylineInputs).fill ∧
    ({ points := none } : PolygonInputs).points = none ∧
    updatePolygon { points := none } (some {}) = some {} :=
  ⟨by decide,
   (C4_fill_amended.1 { fill := "#fff" } {} (by decide)).1,
   by decide,
   C4_fill_amended.2.2.2.1 { text := "hello" } {} (by decide),
   rfl,
   C4_fill_amended.2.2.2.2.2.2.1 { points := some [(1, 2)] } {} [(1, 2)] rfl,
   rfl,
   C4_fill_amended.2.2.2.2.2.2.2.2.2 { points := none } {} rfl⟩

/-- C7: for the circle directives (both versions), create and update set
the size to the diameter and the center to (x + diameter/2,
y + diameter/2); for the base-class ellipse directive, the center is
(x + width/2, y + height/2); hence the x/y inputs are exactly the
top-left corner of the shape's bounding box. -/
theorem C7_circle_ellipse_geometry :
    (∀ i : CircleInputs,
      (createCircle i).w = i.diameter ∧ (createCircle i).h = i.diameter ∧
      (createCircle i).cx = i.x + i.diameter / 2 ∧
      (createCircle i).cy = i.y + i.diameter / 2 ∧
      (createCircle i).cx - (createCircle i).w / 2 = i.x ∧
      (createCircle i).cy - (createCircle i).h / 2 = i.y) ∧
    (∀ (i : CircleInputs) (s : ShapeAttrs),
      (updateCircle i (some s)).map (fun t => (t.w, t.h, t.cx, t.cy)) =
        some (i.diameter, i.diameter,
          i.x + i.diameter / 2, i.y + i.diameter / 2)) ∧
    (∀ (i : CircleInputs) (s : ShapeAttrs),
      (circleSetAttributes i (some s)).map (fun t => (t.w, t.h, t.cx, t.cy)) =
        some (i.diameter, i.diameter,
          i.x + i.diameter / 2, i.y + i.diameter / 2)) ∧
    (∀ (i : EllipseInputs) (s : ShapeAttrs),
      (ellipseSetAttributes i (some s)).map (fun t => (t.w, t.h, t.cx, t.cy)) =
        .ok (i.width, i.height, i.x + i.width / 2, i.y + i.height / 2)) ∧
    (∀ i : EllipseInputs,
      (ellipseCreateShape i).cx = i.x + i.width / 2 ∧
      (ellipseCreateShape i).cy = i.y + i.height / 2 ∧
      (ellipseCreateShape i).w = i.width ∧
      (ellipseCreateShape i).h = i.height ∧
      (ellipseCreateShape i).cx - (ellipseCreateShape i).w / 2 = i.x ∧
      (ellipseCreateShape i).cy - (ellipseCreateShape i).h / 2 = i.y) := by
  have hcreate : ∀ i : CircleInputs, createCircle i =
      { ({} : ShapeAttrs) with
        w := i.diameter, h := i.diameter, fill := i.color,
        cx := i.x + i.diameter / 2, cy := i.y + i.diameter / 2,
        clickHandlers := 1, dblclickHandlers := 1,
        mouseoverHandlers := 1, mouseoutHandlers := 1,
        classes := addAllC [] i.classes } := by
    intro i
    unfold createCircle
    rw [foldl_addClass]
    rfl
  have hellipse : ∀ i : EllipseInputs, ellipseCreateShape i =
      { ({} : ShapeAttrs) with
        w := i.width, h := i.height, fill := i.color,
        cx := i.x + i.width / 2, cy := i.y + i.height / 2,
        clickHandlers := 1, dblclickHandlers := 1,
        mouseoverHandlers := 1, mouseoutHandlers := 1,
        classes := addAllC [] (i.classes.map jsTrim) } := by
    intro i
    unfold ellipseCreateShape ellipseApplyAttributes
    rw [foldl_addClass_trim_eq_record]
    rfl
  refine ⟨fun i => ?_, fun i s => rfl, fun i s => ?_, fun i s => ?_, fun i => ?_⟩
  · rw [hcreate]
    refine ⟨rfl, rfl, rfl, rfl, ?_, ?_⟩ <;> ring
  · show (baseAddRemoveClasses (some _) i.classes []).map _ = _
    rw [baseAddRemoveClasses_some_eq]
    rfl
  · show (Except.ok (ellipseApplyAttributes i s)).map _ = _
    unfold ellipseApplyAttributes
    rw [foldl_addClass_trim_eq_record]
    rfl
  · rw [hellipse]
    refine ⟨rfl, rfl, rfl, rfl, ?_, ?_⟩ <;> ring

theorem indexOf_append_cons_self (X Y : List Nat) (s : Nat) (h : s ∉ X) :
    (X ++ s :: Y).indexOf s = X.length := by
  induction X with
  | nil => exact List.indexOf_cons_self s Y
  | cons a X ih =>
      have hne : a ≠ s := fun he => h (he ▸ List.mem_cons_self a X)
      rw [List.cons_append, List.indexOf_cons_ne _ hne,
        ih fun hx => h (List.mem_cons_of_mem a hx)]
      rfl

/-- Index of the moved shape after a DOM insertBefore, for a container
decomposed around the shape's occurrence: when the target sits before
the shape the shape lands at the target's index, and when the target
sits after it the shape lands one position earlier. -/
theorem indexOf_insert_decomp (X Y : List Nat) (s t : Nat) (p : Nat)
    (hnd : (X ++ s :: Y).Nodup)
    (ht : (X ++ s :: Y)[p]? = some t) (hnep : X.length ≠ p) :
    (domInsertBefore (X ++ s :: Y) s t).indexOf s =
      if X.length < p then p - 1 else p := by
  have hnds := List.nodup_append.1 hnd
  have hXnd : X.Nodup := hnds.1
  have hsYnd : (s :: Y).Nodup := hnds.2.1
  have hdisj : List.Disjoint X (s :: Y) := hnds.2.2
  have hsX : s ∉ X := fun hx => hdisj hx (List.mem_cons_self s Y)
  have hsY : s ∉ Y := (List.nodup_cons.1 hsYnd).1
  have hYnd : Y.Nodup := (List.nodup_cons.1 hsYnd).2
  have hrest : (X ++ s :: Y).erase s = X ++ Y := by
    rw [List.erase_append_right _ hsX, List.erase_cons_head]
  have hsXY : s ∉ X ++ Y := by
    simp [List.mem_append, hsX, hsY]
  have hjval : (X ++ Y).indexOf t = if X.length < p then p - 1 else p := by
    by_cases hlt : p < X.length
    · have hq : X[p]? = some t := by
        rw [← List.getElem?_append_left hlt]
        exact ht
      obtain ⟨hpx, hgt⟩ := List.getElem?_eq_some_iff.1 hq
      have htX : t ∈ X := hgt ▸ List.getElem_mem hpx
      rw [List.indexOf_append_of_mem htX, ← hgt, List.indexOf_getElem hXnd]
      have hnl : ¬ X.length < p := by omega
      rw [if_neg hnl]
    · have hgtl : X.length < p := by omega
      have hq : (s :: Y)[p - X.length]? = some t := by
        rw [← List.getElem?_append_right (by omega : X.length ≤ p)]
        exact ht
      have hk : p - X.length = (p - X.length - 1) + 1 := by omega
      rw [hk, List.getElem?_cons_succ] at hq
      obtain ⟨hky, hgv⟩ := List.getElem?_eq_some_iff.1 hq
      have htY : t ∈ Y := hgv ▸ List.getElem_mem hky
      have htnX : t ∉ X := fun hx => hdisj hx (List.mem_cons_of_mem s htY)
      rw [List.indexOf_append_of_not_mem htnX, ← hgv, List.indexOf_getElem hYnd,
        if_pos hgtl]
      omega
  have hresult : domInsertBefore (X ++ s :: Y) s t =
      (X ++ Y).take ((X ++ Y).indexOf t) ++ s :: (X ++ Y).drop ((X ++ Y).indexOf t) := by
    show ((X ++ s :: Y).erase s).take (((X ++ s :: Y).erase s).indexOf t) ++
      s :: ((X ++ s :: Y).erase s).drop (((X ++ s :: Y).erase s).indexOf t) = _
    rw [hrest]
  rw [hresult]
  have hnotintake : s ∉ (X ++ Y).take ((X ++ Y).indexOf t) :=
    fun hx => hsXY ((List.take_sublist _ _).mem hx)
  rw [List.indexOf_append_of_not_mem hnotintake, List.indexOf_cons_self, Nat.add_zero,
    List.length_take, Nat.min_eq_left List.indexOf_le_length, hjval]

/-- Index of the moved shape after a DOM insertBefore in a duplicate-free
container. -/
theorem domInsertBefore_indexOf (children : List Nat) (s t : Nat) (p : Nat)
    (hnd : children.Nodup) (hs : s ∈ children)
    (ht : children[p]? = some t) (hne : children.indexOf s ≠ p) :
    (domInsertBefore children s t).indexOf s =
      if children.indexOf s < p then p - 1 else p := by
  have hi0 : children.indexOf s < children.length := List.indexOf_lt_length.2 hs
  have hgs : children[children.indexOf s] = s := List.getElem_indexOf hi0
  have hdecomp : children = children.take (children.indexOf s) ++
      s :: children.drop (children.indexOf s + 1) := by
    conv_lhs => rw [← List.take_append_drop (children.indexOf s) children]
    congr 1
    rw [List.drop_eq_getElem_cons hi0, hgs]
  have hXlen : (children.take (children.indexOf s)).length = children.indexOf s := by
    rw [List.length_take]
    exact Nat.min_eq_left hi0.le
  have hsX : s ∉ children.take (children.indexOf s) := by
    intro hmem
    have h1 : children.indexOf s = (children.take (children.indexOf s)).indexOf s := by
      conv_lhs => rw [hdecomp]
      exact List.indexOf_append_of_mem hmem
    have h2 : (children.take (children.indexOf s)).indexOf s <
        (children.take (children.indexOf s)).length := List.indexOf_lt_length.2 hmem
    rw [hXlen] at h2
    omega
  rw [hdecomp] at hnd ht
  rw [hdecomp, indexOf_append_cons_self _ _ _ hsX]
  exact indexOf_insert_decomp _ _ _ _ _ hnd ht (by rw [hXlen]; exact hne)

/-- C6 counterexample: with the shape first in the container ([0, 1, 2],
shape 0) and the host element third among its DOM siblings (index 2),
setCorrectPosition moves the shape to index 1, not 2 — inserting before
the element at the target index lands one short whenever the shape
started before that index. -/
theorem C6_counterexample_offByOne :
    setCorrectPosition (some [0, 1, 2]) (some 0) [5, 6, 7] 7 = some [1, 0, 2] ∧
    ([1, 0, 2] : List Nat).indexOf 0 = 1 ∧
    ([5, 6, 7] : List Nat).indexOf 7 = 2 ∧ (1 : Nat) ≠ 2 := by decide

/-- C6 (amended): setCorrectPosition moves the shape only when the
container has a child at the host's DOM index and the shape's index
differs, and otherwise changes nothing; after a move the shape sits at
exactly the host's index when it started after that index, but one
position earlier (index - 1) when it started before it — the claimed
postcondition index = host index does not hold in the latter case. -/
theorem C6_setCorrectPosition_amended (children domChildren : List Nat)
    (s host : Nat) (hnd : children.Nodup) (hs : s ∈ children) :
    (children[domChildren.indexOf host]? = none →
      setCorrectPosition (some children) (some s) domChildren host = some children) ∧
    (children.indexOf s = domChildren.indexOf host →
      setCorrectPosition (some children) (some s) domChildren host = some children) ∧
    (∀ t, children[domChildren.indexOf host]? = some t →
      children.indexOf s ≠ domChildren.indexOf host →
      setCorrectPosition (some children) (some s) domChildren host =
        some (domInsertBefore children s t) ∧
      (domInsertBefore children s t).indexOf s =
        (if children.indexOf s < domChildren.indexOf host
         then domChildren.indexOf host - 1 else domChildren.indexOf host)) := by
  refine ⟨fun h => ?_, fun h => ?_, fun t ht hne => ⟨?_, ?_⟩⟩
  · show (match children[domChildren.indexOf host]? with
      | none => some children
      | some target =>
          if children.indexOf s ≠ domChildren.indexOf host
          then some (domInsertBefore children s target)
          else some children) = some children
    rw [h]
  · show (match children[domChildren.indexOf host]? with
      | none => some children
      | some target =>
          if children.indexOf s ≠ domChildren.indexOf host
          then some (domInsertBefore children s target)
          else some children) = some children
    cases hq : children[domChildren.indexOf host]? with
    | none => rfl
    | some target =>
        show (if children.indexOf s ≠ domChildren.indexOf host
          then some (domInsertBefore children s target)
          else some children) = some children
        rw [if_neg (fun hcon => hcon h)]
  · show (match children[domChildren.indexOf host]? with
      | none => some children
      | some target =>
          if children.indexOf s ≠ domChildren.indexOf host
          then some (domInsertBefore children s target)
          else some children) = some (domInsertBefore children s t)
    rw [ht]
    show (if children.indexOf s ≠ domChildren.indexOf host
      then some (domInsertBefore children s t)
      else some children) = some (domInsertBefore children s t)
    rw [if_pos hne]
  · exact domInsertBefore_indexOf children s t (domChildren.indexOf host) hnd hs ht hne

/-- Witness for C6 (amended): shape 2 at container index 2 moves in
front of the child at index 0 (the host's DOM index) and indeed lands at
index 0. -/
theorem C6_setCorrectPosition_amended_witness :
    ([0, 1, 2] : List Nat).Nodup ∧ (2 : Nat) ∈ ([0, 1, 2] : List Nat) ∧
    setCorrectPosition (some [0, 1, 2]) (some 2) [5, 6, 7] 5 =
      some (domInsertBefore [0, 1, 2] 2 0) ∧
    (domInsertBefore [0, 1, 2] 2 0).indexOf 2 =
      (if ([0, 1, 2] : List Nat).indexOf 2 < ([5, 6, 7] : List Nat).indexOf 5
       then ([5, 6, 7] : List Nat).indexOf 5 - 1
       else ([5, 6, 7] : List Nat).indexOf 5) := by
  have h := (C6_setCorrectPosition_amended [0, 1, 2] [5, 6, 7] 2 5
    (by decide) (by decide)).2.2 0 (by decide) (by decide)
  exact ⟨by decide, by decide, h.1, h.2⟩

/-- C3 counterexample: the base-class ellipse directive's updateShape,
called while the shape is null, throws a TypeError instead of silently
returning. -/
theorem C3_counterexample_ellipse_null_update :
    ellipseUpdateShape {} none = .error (.typeError "this._shape is null") := rfl

/-- C3 (amended): every lifecycle operation silently no-ops when the
container or the shape is not yet initialized — except the base-class
SvgEllipseDirective, whose updateShape/setAttributes dereferences
this._shape without a null check and throws when the shape is null (its
only caller, ngOnChanges, guards on shape existence, so the throwing
path is unreachable through the directive's own lifecycle). -/
theorem C3_null_guard_amended :
    (∀ (c : Option (List Nat)) (domChildren : List Nat) (host : Nat),
      setCorrectPosition c none domChildren host = c) ∧
    (∀ (sh : Option Nat) (domChildren : List Nat) (host : Nat),
      setCorrectPosition none sh domChildren host = none) ∧
    (∀ ca cr : List String, baseAddRemoveClasses none ca cr = none) ∧
    (∀ c : List Nat, ngOnDestroy none c = (none, c)) ∧
    (∀ i : CircleInputs, updateCircle i none = none ∧ circleSetAttributes i none = none) ∧
    (∀ i : RectInputs, updateRect i none = none) ∧
    (∀ i : TextInputs, updateText i none = none) ∧
    (∀ i : PolylineInputs, polylineUpdateShape i none = none) ∧
    (∀ (i : PolylineInputs) (s : ShapeAttrs), i.points = none →
      polylineUpdateShape i (some s) = some s) ∧
    (∀ i : PathInputs, pathSetAttributes i none = none ∧
      updatePath i none = none ∧ pathUpdateShape i none = none) ∧
    (∀ (i : PathInputs) (record : Option ClassesChange),
      pathNgOnChangesNew i record none = .ok none ∧
      pathNgOnChangesLegacy i record none = .ok none) ∧
    (∀ (i : ImageInputs) (reloadImage : Bool),
      imageUpdateImage i reloadImage none = none) ∧
    (∀ (i : ImageInputs) (ch : ImageChanges),
      imageNgOnChanges i ch none = .ok none) ∧
    (∀ i : EllipseInputs,
      ellipseUpdateShape i none = .error (.typeError "this._shape is null")) := by
  refine ⟨fun c dom host => ?_, fun sh dom host => ?_, fun ca cr => rfl,
    fun c => rfl, fun i => ⟨rfl, rfl⟩, fun i => rfl, fun i => rfl,
    fun i => ?_, fun i s h => ?_, fun i => ⟨rfl, rfl, rfl⟩,
    fun i record => ⟨rfl, rfl⟩, fun i b => rfl, fun i ch => rfl, fun i => rfl⟩
  · cases c <;> rfl
  · cases sh <;> rfl
  · obtain ⟨pts, bs, bc, f, cls⟩ := i
    cases pts <;> rfl
  · simp [polylineUpdateShape, h]

/-- Witness for C3 (amended) discharging its hypotheses at concrete
inputs. -/
theorem C3_null_guard_amended_witness :
    ({ points := none } : PolylineInputs).points = none ∧
    polylineUpdateShape { points := none } (some {}) = some {} :=
  ⟨rfl, C3_null_guard_amended.2.2.2.2.2.2.2.2.1 { points := none } {} rfl⟩

/-- C8 counterexample: after creating the image shape (one handler per
pointer event kind) a single imageUrl change reloads the image and
registers a second click handler, so the shape then carries two. -/
theorem C8_counterexample_reload_duplicates_handlers :
    (imageCreateShape { imageUrl := "a" }).clickHandlers = 1 ∧
    (imageNgOnChanges { imageUrl := "b" }
        { imageUrl := some ⟨"a", "b"⟩ }
        (some (imageCreateShape { imageUrl := "a" }))).map
      (fun sh => sh.map ShapeAttrs.clickHandlers) = .ok (some 2) ∧
    (2 : Nat) ≠ 1 := by
  refine ⟨rfl, rfl, by decide⟩

/-- C8 (amended): creation registers exactly one handler per pointer
event kind; every ngOnChanges that reloads the image (imageUrl present
and changed) adds exactly one more handler of each kind, while any
ngOnChanges that does not reload leaves the handler counts unchanged.
So after k reloads each kind has k + 1 handlers, not 1. -/
theorem C8_handlers_amended :
    (∀ i : ImageInputs,
      (imageCreateShape i).clickHandlers = 1 ∧
      (imageCreateShape i).dblclickHandlers = 1 ∧
      (imageCreateShape i).mouseoverHandlers = 1 ∧
      (imageCreateShape i).mouseoutHandlers = 1) ∧
    (∀ (i : ImageInputs) (ch : ImageChanges) (s : ShapeAttrs)
        (u : SimpleChangeS) (d : ClassDiff),
      ch.imageUrl = some u → u.currentValue ≠ u.previousValue →
      getClassesToAddAndRemove ch.classes = .ok d →
      (imageNgOnChanges i ch (some s)).map (fun sh => sh.map fun t =>
        (t.clickHandlers, t.dblclickHandlers,
         t.mouseoverHandlers, t.mouseoutHandlers)) =
        .ok (some (s.clickHandlers + 1, s.dblclickHandlers + 1,
          s.mouseoverHandlers + 1, s.mouseoutHandlers + 1))) ∧
    (∀ (i : ImageInputs) (ch : ImageChanges) (s : ShapeAttrs) (d : ClassDiff),
      (∀ u, ch.imageUrl = some u → u.currentValue = u.previousValue) →
      getClassesToAddAndRemove ch.classes = .ok d →
      (imageNgOnChanges i ch (some s)).map (fun sh => sh.map fun t =>
        (t.clickHandlers, t.dblclickHandlers,
         t.mouseoverHandlers, t.mouseoutHandlers)) =
        .ok (some (s.clickHandlers, s.dblclickHandlers,
          s.mouseoverHandlers, s.mouseoutHandlers))) := by
  refine ⟨fun i => ?_, fun i ch s u d hu hne hd => ?_, fun i ch s d hu hd => ?_⟩
  · unfold imageCreateShape
    rw [foldl_addClass_trim_eq_record]
    exact ⟨rfl, rfl, rfl, rfl⟩
  · obtain ⟨x0, y0, w0, h0, url0, cls0⟩ := ch
    simp only at hu hd
    subst hu
    show (match getClassesToAddAndRemove cls0 with
      | .error e => Except.error e
      | .ok diff => .ok (baseAddRemoveClasses
          (if decide (u.currentValue ≠ u.previousValue) = true
            then imageUpdateImage i true (some s)
            else if changedR x0 || changedR y0 || changedR w0 || changedR h0
              then imageUpdateImage i false (some s)
              else some s)
          diff.classesToAdd diff.classesToRemove)).map _ = _
    rw [hd, if_pos (decide_eq_true hne)]
    show (Except.ok ((baseAddRemoveClasses (some (imageLoadImage i s))
      d.classesToAdd d.classesToRemove))).map _ = _
    rw [baseAddRemoveClasses_some_eq]
    rfl
  · obtain ⟨x0, y0, w0, h0, url0, cls0⟩ := ch
    simp only at hu hd
    have hcond : ∀ (o : Option SimpleChangeS),
        (∀ u2, o = some u2 → u2.currentValue = u2.previousValue) →
        (match o with
          | none => false
          | some u2 => decide (u2.currentValue ≠ u2.previousValue)) = false := by
      intro o ho
      cases o with
      | none => rfl
      | some u2 => simp [ho u2 rfl]
    have hurl := hcond url0 hu
    show (match getClassesToAddAndRemove cls0 with
      | .error e => Except.error e
      | .ok diff => .ok (baseAddRemoveClasses
          (if (match url0 with
              | none => false
              | some u2 => decide (u2.currentValue ≠ u2.previousValue)) = true
            then imageUpdateImage i true (some s)
            else if changedR x0 || changedR y0 || changedR w0 || changedR h0
              then imageUpdateImage i false (some s)
              else some s)
          diff.classesToAdd diff.classesToRemove)).map _ = _
    rw [hd, if_neg (by rw [hurl]; exact Bool.false_ne_true)]
    cases hprops : (changedR x0 || changedR y0 || changedR w0 || changedR h0) with
    | true =>
        rw [if_pos rfl]
        show (Except.ok ((baseAddRemoveClasses
          (some (SvgJs.move (SvgJs.size s i.width i.height) i.x i.y))
          d.classesToAdd d.classesToRemove))).map _ = _
        rw [baseAddRemoveClasses_some_eq]
        rfl
    | false =>
        rw [if_neg Bool.false_ne_true]
        show (Except.ok ((baseAddRemoveClasses (some s)
          d.classesToAdd d.classesToRemove))).map _ = _
        rw [baseAddRemoveClasses_some_eq]
        rfl

/-- Witness for C8 (amended) at concrete inputs. -/
theorem C8_handlers_amended_witness :
    ({ imageUrl := some ⟨"a", "b"⟩ } : ImageChanges).imageUrl = some ⟨"a", "b"⟩ ∧
    ("b" : String) ≠ "a" ∧
    getClassesToAddAndRemove ({ imageUrl := some ⟨"a", "b"⟩ } : ImageChanges).classes =
      .ok ⟨[], []⟩ ∧
    (imageNgOnChanges {} { imageUrl := some ⟨"a", "b"⟩ } (some {})).map
      (fun sh => sh.map fun t =>
        (t.clickHandlers, t.dblclickHandlers,
         t.mouseoverHandlers, t.mouseoutHandlers)) =
      .ok (some (({} : ShapeAttrs).clickHandlers + 1,
        ({} : ShapeAttrs).dblclickHandlers + 1,
        ({} : ShapeAttrs).mouseoverHandlers + 1,
        ({} : ShapeAttrs).mouseoutHandlers + 1)) :=
  ⟨rfl, by decide, rfl,
   C8_handlers_amended.2.1 {} { imageUrl := some ⟨"a", "b"⟩ } {} ⟨"a", "b"⟩
     ⟨[], []⟩ rfl (by decide) rfl⟩

/-- C9 counterexample: with a class name carrying leading whitespace the
two path directive versions are NOT observationally equivalent — on the
same creation lifecycle the base-class version trims and adds the class
name without the space while the legacy version adds it verbatim, so the
underlying shapes end up with different class lists. -/
theorem C9_counterexample_trimming :
    (pathRunNew ⟨{ classes := [" a"] }, none⟩ [.viewChecked true]).map
      (fun st => st.shape.map ShapeAttrs.classes) = .ok (some ["a"]) ∧
    (pathRunLegacy ⟨{ classes := [" a"] }, none⟩ [.viewChecked true]).map
      (fun st => st.shape.map ShapeAttrs.classes) = .ok (some [" a"]) ∧
    (["a"] : List String) ≠ [" a"] := by
  refine ⟨rfl, rfl, by decide⟩

/-- C9 (amended): for every identical lifecycle sequence whose classes
change records are honest (previousValue and currentValue are the old
and new classes arrays, as Angular produces them) and whose class names
are whitespace-trimmed, the base-class SvgPathDirective and the legacy
standalone SvgPathDirective leave the underlying path shape in identical
attribute states (same plot, stroke, fill, move arguments, class list
and handler registrations); in general they differ, because the base
class trims class names (and re-plots and re-adds classes redundantly
but idempotently). -/
theorem C9_path_versions_equivalent (events : List PathEvent) (i : PathInputs)
    (htrim : trimmedClasses i.classes = true)
    (hhon : honestEvents i events = true)
    (htre : trimmedEvents events = true) :
    pathRunNew ⟨i, none⟩ events = pathRunLegacy ⟨i, none⟩ events :=
  pathRun_equiv events ⟨i, none⟩ (fun s hs => nomatch hs)
    ((trimmedClasses_iff _).1 htrim) hhon htre

/-- Witness for C9 (amended) on a concrete honest lifecycle: create,
change the classes input from [a] to [a, b] with an honest record, then
destroy. -/
theorem C9_path_versions_equivalent_witness :
    trimmedClasses ({ classes := ["a"] } : PathInputs).classes = true ∧
    honestEvents { classes := ["a"] }
      [.viewChecked true,
       .changes { classes := ["a", "b"] }
         (some ⟨.arr ["a"], .arr ["a", "b"], false⟩),
       .destroy] = true ∧
    trimmedEvents
      [.viewChecked true,
       .changes { classes := ["a", "b"] }
         (some ⟨.arr ["a"], .arr ["a", "b"], false⟩),
       .destroy] = true ∧
    pathRunNew ⟨{ classes := ["a"] }, none⟩
      [.viewChecked true,
       .changes { classes := ["a", "b"] }
         (some ⟨.arr ["a"], .arr ["a", "b"], false⟩),
       .destroy] =
    pathRunLegacy ⟨{ classes := ["a"] }, none⟩
      [.viewChecked true,
       .changes { classes := ["a", "b"] }
         (some ⟨.arr ["a"], .arr ["a", "b"], false⟩),
       .destroy] :=
  ⟨by decide, by decide, by decide,
   C9_path_versions_equivalent _ { classes := ["a"] }
     (by decide) (by decide) (by decide)⟩

end NgxSvg
